import Mathlib

/-!
# Verification of the simple_http request dispatch pipeline

This file shallowly embeds the core of the `simple_http` Rust library
(`src/simple_http/src/` — `app.rs`, `http_util.rs`, `default_handlers.rs`, `lib.rs`)
and settles the frozen claims about it.

Embedding conventions:

* The request-parsing regular expression of `http_util::parse_request`
  (`(?m)(?P<method>[A-Z]+) (?P<path>[^ ]+) HTTP/1\.\d\r\n`
  `(?P<headers>(?:[A-Za-z-]+: [^\r\n]+\r\n)+)?(?:\r\n(?P<body>.+))?`)
  is embedded as a deterministic matcher on `List Char` that mirrors the
  leftmost-first, greedy semantics of the `regex` crate.  Since no quantified
  subexpression can consume a character also demanded by its continuation
  (the character classes are disjoint from the required follow characters),
  greedy maximal munch coincides with the backtracking semantics.  `\d` is
  the crate's default Unicode `\p{Nd}`, modelled by the Unicode 14.0 table
  of the Nd (decimal number) general category.
* The final `build.body(body).unwrap()` of `parse_request` surfaces the
  builder's accumulated validation errors as a panic: the captured method
  (`[A-Z]+`) and header names (`[A-Za-z-]+`) always lie inside the alphabets
  `http::Method` / `http::HeaderName` accept, but `http::Uri` rejects
  grammar-admitted path characters (double quote, angle brackets, backtick,
  braces, DEL, controls, non-ASCII) and `http::HeaderValue` rejects bytes
  below 0x20 (except tab) and 0x7F.  The model checks the captured request
  target and header values accordingly and yields the panic outcome when the
  builder would reject them; the origin-form (leading-slash) target
  validation is modelled exactly, while the authority/absolute forms, which
  no theorem here exercises, are modelled by the documented authority
  character scan.
* `http::HeaderMap` (used via `Request::builder().header(..)`, which
  lowercases the `HeaderName` and appends, keeping every value and grouping
  values of one name at the name's first occurrence) is modelled as an
  association list `List (String × List String)`.
* `Rust` panics (`.unwrap()` on `None`/`Err`) are modelled by `Option`
  results: `none` marks a panic, which in this single-threaded server aborts
  the accept loop and hence the process.
* Handler patterns (`regex::Regex` compiled in `App::add_handler`) are
  modelled by a small regular-expression syntax `Rx` with a derivative-based
  matcher; `Regex::is_match` is the unanchored search `isMatch`.
  The textual regex compiler itself is not modelled: routes carry the
  compiled `Rx`.
* The `http::Uri` built from the captured request target is kept as the raw
  string; `uriPath`/`uriHost` model `Uri::path()` / `Uri::host()` for the
  origin form (a target starting with `/` has no authority, hence no host)
  and, for other forms, the authority section up to `/`/`?` with userinfo
  and port stripped.  The builder's character-validity checks of
  `http::Uri` / `http::HeaderValue` are outside the embedded fragment.
-/

namespace SimpleHttp

/-- Characters matched by the `[A-Z]` class of the request-line regex. -/
def isUpperAZ (c : Char) : Bool := 'A' ≤ c && c ≤ 'Z'

/-- Characters matched by the `[A-Za-z-]` class for header names. -/
def isNameChar (c : Char) : Bool :=
  ('A' ≤ c && c ≤ 'Z') || ('a' ≤ c && c ≤ 'z') || c = '-'

/-- Characters matched by the `[^\r\n]` class for header values; also the
characters a (CRLF-terminated) line may contain. -/
def isValueChar (c : Char) : Bool := c != '\r' && c != '\n'

/-- Characters matched by `[^ ]` for the request path. -/
def isPathChar (c : Char) : Bool := c != ' '

/-- Code-point ranges of the Unicode Nd (decimal number) general category,
Unicode 14.0 — the character class of the regex crate's default `\d`. -/
def ndRanges : List (Nat × Nat) :=
  [(0x30, 0x39), (0x660, 0x669), (0x6f0, 0x6f9), (0x7c0, 0x7c9), (0x966, 0x96f),
   (0x9e6, 0x9ef), (0xa66, 0xa6f), (0xae6, 0xaef), (0xb66, 0xb6f), (0xbe6, 0xbef),
   (0xc66, 0xc6f), (0xce6, 0xcef), (0xd66, 0xd6f), (0xde6, 0xdef), (0xe50, 0xe59),
   (0xed0, 0xed9), (0xf20, 0xf29), (0x1040, 0x1049), (0x1090, 0x1099), (0x17e0, 0x17e9),
   (0x1810, 0x1819), (0x1946, 0x194f), (0x19d0, 0x19d9), (0x1a80, 0x1a89), (0x1a90, 0x1a99),
   (0x1b50, 0x1b59), (0x1bb0, 0x1bb9), (0x1c40, 0x1c49), (0x1c50, 0x1c59), (0xa620, 0xa629),
   (0xa8d0, 0xa8d9), (0xa900, 0xa909), (0xa9d0, 0xa9d9), (0xa9f0, 0xa9f9), (0xaa50, 0xaa59),
   (0xabf0, 0xabf9), (0xff10, 0xff19), (0x104a0, 0x104a9), (0x10d30, 0x10d39),
   (0x11066, 0x1106f), (0x110f0, 0x110f9), (0x11136, 0x1113f), (0x111d0, 0x111d9),
   (0x112f0, 0x112f9), (0x11450, 0x11459), (0x114d0, 0x114d9), (0x11650, 0x11659),
   (0x116c0, 0x116c9), (0x11730, 0x11739), (0x118e0, 0x118e9), (0x11950, 0x11959),
   (0x11c50, 0x11c59), (0x11d50, 0x11d59), (0x11da0, 0x11da9), (0x16a60, 0x16a69),
   (0x16ac0, 0x16ac9), (0x16b50, 0x16b59), (0x1d7ce, 0x1d7ff), (0x1e140, 0x1e149),
   (0x1e2f0, 0x1e2f9), (0x1e950, 0x1e959), (0x1fbf0, 0x1fbf9)]

/-- Does the character belong to `\p{Nd}`, the class matched by the version
digit `\d` of the request-line regex? -/
def isNd (c : Char) : Bool := ndRanges.any (fun r => r.1 ≤ c.toNat && c.toNat ≤ r.2)

/-- Characters `http::Uri` accepts unescaped in the path section of an
origin-form request target: `!`, `$`–`;`, `=`, `@`–`_`, `a`–`z`, `|` and
`~`.  Rejected (turning the builder's deferred unwrap into a panic): double
quote, angle brackets, backtick, braces, DEL, control characters, space and
non-ASCII; `?` and `#` are the query/fragment delimiters, handled by the
scan below. -/
def isUriPathChar (c : Char) : Bool :=
  c.toNat = 0x21 || (0x24 ≤ c.toNat && c.toNat ≤ 0x3B) || c.toNat = 0x3D ||
  (0x40 ≤ c.toNat && c.toNat ≤ 0x5F) || (0x61 ≤ c.toNat && c.toNat ≤ 0x7A) ||
  c.toNat = 0x7C || c.toNat = 0x7E

/-- Characters `http::Uri` accepts unescaped in the query section: `!`,
`$`–`;`, `=` and `?`–`~`. -/
def isUriQueryChar (c : Char) : Bool :=
  c.toNat = 0x21 || (0x24 ≤ c.toNat && c.toNat ≤ 0x3B) || c.toNat = 0x3D ||
  (0x3F ≤ c.toNat && c.toNat ≤ 0x7E)

/-- Scan of the query section of a path-and-query target: a `#` starts the
fragment, which is cut off before validation and therefore always accepted. -/
def pathQueryScanQuery : List Char → Bool
  | [] => true
  | c :: rest => if c = '#' then true else isUriQueryChar c && pathQueryScanQuery rest

/-- Scan of the path section of a path-and-query target: a `?` switches to
the query scan, a `#` starts the (unvalidated) fragment. -/
def pathQueryScanPath : List Char → Bool
  | [] => true
  | c :: rest =>
    if c = '?' then pathQueryScanQuery rest
    else if c = '#' then true
    else isUriPathChar c && pathQueryScanPath rest

/-- Characters accepted in the authority section of a non-origin-form URI
(alphanumerics, the sub-delimiters, `:`/`@`, brackets, `_`, `~`).  No
theorem in this file depends on this branch; it models the authority scan of
`http::Uri` for request targets that do not begin with a slash. -/
def isAuthorityChar (c : Char) : Bool :=
  ('0' ≤ c && c ≤ '9') || ('A' ≤ c && c ≤ 'Z') || ('a' ≤ c && c ≤ 'z') ||
  c = '!' || c = '$' || c = '&' || c = '\'' || c = '(' || c = ')' || c = '*' || c = '+' ||
  c = ',' || c = '-' || c = '.' || c = ':' || c = ';' || c = '=' || c = '@' ||
  c = '[' || c = ']' || c = '_' || c = '~'

/-- Text after the first `://`, if any (scheme separator of an absolute-form
URI). -/
def afterSchemeSep : List Char → Option (List Char)
  | ':' :: '/' :: '/' :: rest => some rest
  | _ :: rest => afterSchemeSep rest
  | [] => none

/-- Does `http::Uri` accept the captured request target?  An empty target is
an error; a leading slash selects the exactly-modelled origin-form
path-and-query validation; a lone `*` is the asterisk form; any other target
is an authority or absolute form, validated by the authority character scan
(with the path-and-query scan after a scheme separator). -/
def uriBuilderAccepts (l : List Char) : Bool :=
  match l with
  | [] => false
  | c :: rest =>
    if c = '/' then pathQueryScanPath (c :: rest)
    else if c = '*' ∧ rest = [] then true
    else
      match afterSchemeSep (c :: rest) with
      | some r2 =>
        let auth := r2.takeWhile (fun x => x != '/' && x != '?' && x != '#')
        auth.all isAuthorityChar && pathQueryScanPath (r2.drop auth.length)
      | none => (c :: rest).all isAuthorityChar

/-- Byte-acceptance of `http::HeaderValue`: tab, or any byte of value at
least 0x20 other than DEL (0x7F).  Every byte of a multi-byte UTF-8
character is at least 0x80, so non-ASCII characters are accepted; the check
is modelled per character. -/
def isHeaderValueByte (c : Char) : Bool :=
  c = '\t' || (32 ≤ c.toNat && c.toNat ≠ 127)

/-- Capture groups of the request regex: `method`, `path`, the raw text of
the `headers` group (empty when the group did not participate) and the
`body` group (empty when absent). -/
structure Caps where
  method : List Char
  path : List Char
  headersRaw : List Char
  body : List Char
deriving Repr, DecidableEq

/-- One iteration of the header group `[A-Za-z-]+: [^\r\n]+\r\n`: on success
returns the consumed text and the remaining input.  Greedy maximal munch of
each class is exact because the follow characters (`:`, `\r\n`) are outside
the classes. -/
def matchHeaderLine (cs : List Char) : Option (List Char × List Char) :=
  let name := cs.takeWhile isNameChar
  let r1 := cs.dropWhile isNameChar
  if name.isEmpty then none
  else
    match r1 with
    | ':' :: ' ' :: r2 =>
      let value := r2.takeWhile isValueChar
      let r3 := r2.dropWhile isValueChar
      if value.isEmpty then none
      else
        match r3 with
        | '\r' :: '\n' :: r4 => some (name ++ ':' :: ' ' :: (value ++ ['\r', '\n']), r4)
        | _ => none
    | _ => none

/-- Greedy repetition of `matchHeaderLine` (the `(...)+` inside the optional
headers group): returns the raw capture and the rest.  The fuel argument is
instantiated with the input length, which strictly bounds the number of
lines since every line consumes at least one character. -/
def matchHeaderLines : Nat → List Char → List Char × List Char
  | 0, cs => ([], cs)
  | Nat.succ n, cs =>
    match matchHeaderLine cs with
    | none => ([], cs)
    | some (line, rest) =>
      let p := matchHeaderLines n rest
      (line ++ p.1, p.2)

/-- The optional `(?:\r\n(?P<body>.+))?` tail: the body capture is the maximal
run of non-`\n` characters after a CRLF (`.` does not match a line feed), and
is empty when the group does not participate. -/
def bodyCapture (r : List Char) : List Char :=
  match r with
  | '\r' :: '\n' :: r6 => r6.takeWhile (fun c => c != '\n')
  | _ => []

/-- The literal tail ` HTTP/1.` followed by a digit and CRLF of the request
line; on success returns the version digit and the remaining input. -/
def matchVersionAt (cs : List Char) : Option (Char × List Char) :=
  match cs with
  | c0 :: c1 :: c2 :: c3 :: c4 :: c5 :: c6 :: c7 :: d :: c9 :: c10 :: r4 =>
    if c0 = ' ' ∧ c1 = 'H' ∧ c2 = 'T' ∧ c3 = 'T' ∧ c4 = 'P' ∧ c5 = '/' ∧ c6 = '1' ∧
        c7 = '.' ∧ c9 = '\r' ∧ c10 = '\n' ∧ isNd d
    then some (d, r4) else none
  | _ => none

/-- Attempt to match the whole request regex at the head of the input;
mirrors the regex alternative-free pattern with greedy classes.  Succeeds
exactly when the request line `[A-Z]+ [^ ]+ HTTP/1\.\d\r\n` matches here;
the headers and body groups are optional and never fail. -/
def matchReqAt (cs : List Char) : Option Caps :=
  let method := cs.takeWhile isUpperAZ
  let r1 := cs.dropWhile isUpperAZ
  if method.isEmpty then none
  else
    match r1 with
    | ' ' :: r2 =>
      let path := r2.takeWhile isPathChar
      let r3 := r2.dropWhile isPathChar
      if path.isEmpty then none
      else
        match matchVersionAt r3 with
        | some (_, r4) =>
          let hp := matchHeaderLines r4.length r4
          some { method := method, path := path, headersRaw := hp.1,
                 body := bodyCapture hp.2 }
        | none => none
    | _ => none

/-- Leftmost search of `Regex::captures`: try every start position from the
left and return the first success. -/
def findMatch : List Char → Option Caps
  | [] => none
  | c :: cs =>
    match matchReqAt (c :: cs) with
    | some k => some k
    | none => findMatch cs

/-- Model of Rust's `str::split("\r\n")`: split at every non-overlapping
occurrence of CRLF, scanning left to right. -/
def splitCRLF : List Char → List (List Char)
  | [] => [[]]
  | [c] => [[c]]
  | c1 :: c2 :: rest =>
    if c1 = '\r' ∧ c2 = '\n' then [] :: splitCRLF rest
    else
      match splitCRLF (c2 :: rest) with
      | [] => [[c1]]
      | h :: t => (c1 :: h) :: t

/-- Model of Rust's `str::split_once(": ")`: split at the first occurrence of
`": "`, or fail when the separator does not occur. -/
def splitOnceCS : List Char → Option (List Char × List Char)
  | [] => none
  | [_] => none
  | c1 :: c2 :: rest =>
    if c1 = ':' ∧ c2 = ' ' then some ([], rest)
    else
      match splitOnceCS (c2 :: rest) with
      | some (a, b) => some (c1 :: a, b)
      | none => none

/-- The header post-processing of `parse_request`: split the raw headers
capture on CRLF, drop empty pieces, and `split_once(": ")` each line.  The
`.unwrap()` on `split_once` is modelled by the `Option` (`none` = panic);
it can in fact never fail on a capture produced by `matchHeaderLines`. -/
def headersFromRaw (raw : List Char) : Option (List (List Char × List Char)) :=
  ((splitCRLF raw).filter (fun l => !l.isEmpty)).mapM splitOnceCS

/-- Model of `http::HeaderMap`: entries in first-insertion order of the
(lowercased) name; each entry keeps all of the name's values in insertion
order. -/
abbrev HeaderMap := List (String × List String)

/-- Model of `HeaderMap::append` (what `Request::builder().header(..)` does):
push the value onto the name's existing entry, or add a fresh entry at the
end. -/
def headerAppend (m : HeaderMap) (k v : String) : HeaderMap :=
  match m with
  | [] => [(k, [v])]
  | e :: rest => if e.1 = k then (e.1, e.2 ++ [v]) :: rest else e :: headerAppend rest k v

/-- Model of the `http::HeaderName` case folding: the crate lowercases every
ASCII byte of the name; over the `[A-Za-z-]` wire alphabet this is a
per-character lowercase map. -/
def lowerName (s : String) : String := String.mk (s.data.map Char.toLower)

/-- Build the header map the way the request builder does: each wire pair in
order, the name lowercased by `http::HeaderName`. -/
def buildHeaderMap (ps : List (String × String)) : HeaderMap :=
  ps.foldl (fun m p => headerAppend m (lowerName p.1) p.2) []

/-- Model of the `http::Request` the parser builds: method and raw request
target as captured, the built header map, and the body text. -/
structure Request where
  method : String
  uri : String
  headers : HeaderMap
  body : String
deriving Repr, DecidableEq

/-- Outcome of `http_util::parse_request`: `noMatch` models `Option::None`
(the regex matched nowhere), `panicked` models a panic of one of the
`.unwrap()` calls inside the function. -/
inductive ParseOutcome where
  | success (req : Request)
  | noMatch
  | panicked
deriving Repr, DecidableEq

/-- Embedding of `http_util::parse_request`: run the unanchored regex search,
split the raw headers capture into pairs, run the request builder — whose
deferred validation errors the final body unwrap turns into a panic when
`http::Uri` rejects the captured target or `http::HeaderValue` rejects a
captured value (the method and name captures are always in-alphabet) — and
assemble the request (the builder lowercases header names and appends
duplicates in order). -/
def parse_request (s : String) : ParseOutcome :=
  match findMatch s.data with
  | none => ParseOutcome.noMatch
  | some caps =>
    match headersFromRaw caps.headersRaw with
    | none => ParseOutcome.panicked
    | some ps =>
      if uriBuilderAccepts caps.path && ps.all (fun p => p.2.all isHeaderValueByte) then
        ParseOutcome.success
          { method := String.mk caps.method
            uri := String.mk caps.path
            headers := buildHeaderMap (ps.map (fun p => (String.mk p.1, String.mk p.2)))
            body := String.mk caps.body }
      else ParseOutcome.panicked

/-- Model of `Uri::path()` for the origin-form request targets produced from
the request line: the text before the first `?`. -/
def uriPath (u : String) : String := String.mk (u.data.takeWhile (fun c => c != '?'))

/-- Text after the first occurrence of the character `c`, if any. -/
def afterChar (c : Char) : List Char → Option (List Char)
  | [] => none
  | x :: rest => if x = c then some rest else afterChar c rest

/-- Model of `Uri::host()`: an origin-form target (starting with `/`) has no
authority and therefore no host; otherwise the host is the authority section
(after any scheme), with userinfo and port stripped. -/
def uriHost (u : String) : Option String :=
  if u.data.head? = some '/' then none
  else
    let rest := (afterSchemeSep u.data).getD u.data
    let auth := rest.takeWhile (fun c => c != '/' && c != '?' && c != '#')
    let hp := (afterChar '@' auth).getD auth
    some (String.mk (hp.takeWhile (fun c => c != ':')))

/-- Visible-ASCII test of the `http` crate's `HeaderValue` Debug formatting
(printable ASCII or tab). -/
def isVisibleAscii (c : Char) : Bool := (32 ≤ c.toNat && c.toNat < 127) || c = '\t'

/-- Per-character escaping of the `HeaderValue` Debug formatting: a double
quote becomes `\"`, a non-visible byte becomes `\x..`, everything else is
kept. -/
def escapeByte (c : Char) : List Char :=
  if c = '"' then ['\\', '"']
  else if isVisibleAscii c then [c]
  else '\\' :: 'x' :: Nat.toDigits 16 c.toNat

/-- Model of the Debug formatting of an `http::HeaderValue` that is not
marked sensitive (parsed
request values are never marked sensitive): the escaped text enclosed in
double quotes.  Byte-level escaping is modelled per character; the two
coincide on ASCII values. -/
def headerValueDebug (v : String) : List Char :=
  '"' :: (v.data.flatMap escapeByte) ++ ['"']

/-- Model of `Regex::new("(^\")|(\"$)").replace_all(s, "")`: remove a leading
double quote and a trailing double quote (each at most once, non-overlapping,
scanning left to right). -/
def stripQuotes (l : List Char) : List Char :=
  let l1 := match l with
    | '"' :: t => t
    | _ => l
  match l1.getLast? with
  | some '"' => l1.dropLast
  | _ => l1

/-- Embedding of `http_util::parse_header`: Debug-format the header value and
strip the leading/trailing quote artifacts. -/
def parse_header (v : String) : String := String.mk (stripQuotes (headerValueDebug v))

/-- Per-character escaping of Rust's `str` Debug formatting, for the
characters relevant here. -/
def escapeStrChar (c : Char) : List Char :=
  if c = '"' then ['\\', '"']
  else if c = '\\' then ['\\', '\\']
  else if c = '\n' then ['\\', 'n']
  else if c = '\r' then ['\\', 'r']
  else if c = '\t' then ['\\', 't']
  else [c]

/-- Model of the Debug formatting of a Rust string slice. -/
def strDebug (s : String) : String := String.mk ('"' :: s.data.flatMap escapeStrChar ++ ['"'])

/-- All (name, value) pairs of a header map in iteration order. -/
def headerIter (m : HeaderMap) : List (String × String) :=
  m.flatMap (fun e => e.2.map (fun v => (e.1, v)))

/-- Embedding of `http_util::construct_request`.  The source formats the
method, the URI path, the Debug form of the version, then a hardcoded Host
header holding the Debug form of the URI host, then the headers joined by
CRLF, a blank line, and the body; the host comes from an unwrap of
`req.uri().host()`, and `none` models that unwrap panicking when the URI has
no host (requests parsed from an origin-form request line always lack one).
The parsed request's version is the builder default, whose Debug form is
`HTTP/1.1`. -/
def construct_request (req : Request) : Option String :=
  (uriHost req.uri).map (fun host =>
    req.method ++ " " ++ uriPath req.uri ++ " " ++ "HTTP/1.1" ++ "\r\nHost: " ++
      strDebug host ++ "\r\n" ++
      String.intercalate "\r\n"
        ((headerIter req.headers).map (fun p => p.1 ++ ": " ++ parse_header p.2)) ++
      "\r\n" ++ req.body)

/-- Syntax of the route patterns: literal characters, `.` (any character but
a line feed, as in the `regex` crate without the `s` flag), sequencing,
alternation and Kleene star.  Routes store patterns already compiled, as
`App::add_handler` compiles its pattern string eagerly. -/
inductive Rx where
  | void
  | eps
  | lit (c : Char)
  | dot
  | seq (a b : Rx)
  | alt (a b : Rx)
  | star (a : Rx)
deriving Repr, DecidableEq

/-- Does the pattern accept the empty string? -/
def nullable : Rx → Bool
  | Rx.void => false
  | Rx.eps => true
  | Rx.lit _ => false
  | Rx.dot => false
  | Rx.seq a b => nullable a && nullable b
  | Rx.alt a b => nullable a || nullable b
  | Rx.star _ => true

/-- Brzozowski derivative of a pattern by one character. -/
def deriv : Rx → Char → Rx
  | Rx.void, _ => Rx.void
  | Rx.eps, _ => Rx.void
  | Rx.lit c, x => if x = c then Rx.eps else Rx.void
  | Rx.dot, x => if x = '\n' then Rx.void else Rx.eps
  | Rx.seq a b, x =>
    if nullable a then Rx.alt (Rx.seq (deriv a x) b) (deriv b x)
    else Rx.seq (deriv a x) b
  | Rx.alt a b, x => Rx.alt (deriv a x) (deriv b x)
  | Rx.star a, x => Rx.seq (deriv a x) (Rx.star a)

/-- Whole-string acceptance of a pattern. -/
def matchFull (r : Rx) (cs : List Char) : Bool := nullable (cs.foldl deriv r)

/-- Does some prefix of the input match the pattern? -/
def matchHere (r : Rx) : List Char → Bool
  | [] => nullable r
  | c :: cs => nullable r || matchHere (deriv r c) cs

/-- Model of `Regex::is_match`: unanchored search — does the pattern match
starting at some position, i.e. does it accept some substring? -/
def isMatch (r : Rx) : List Char → Bool
  | [] => nullable r
  | c :: cs => matchHere r (c :: cs) || isMatch r cs

/-- Pattern matching a string literally (a regex with no metacharacters,
e.g. the route `"/echo"`). -/
def rxOfString (s : String) : Rx :=
  s.data.foldr (fun c r => Rx.seq (Rx.lit c) r) Rx.eps

/-- Model of an `http::Response` as a handler builds it: status code, the
(name, value) pairs of its header map in iteration order, body, and the
Debug form of its version (builder default `HTTP/1.1`). -/
structure Response where
  version : String
  status : Nat
  headers : List (String × String)
  body : String
deriving Repr, DecidableEq

/-- Handler functions, `fn(Request) -> Response`. -/
abbrev Handler := Request → Response

/-- The route table: `(pattern, handler)` pairs in registration order, as
pushed by `App::add_handler`. -/
abbrev HandlerList := List (Rx × Handler)

/-- Embedding of `default_handlers::not_found`: a 404 response with an empty
body and no headers. -/
def not_found (_req : Request) : Response :=
  { version := "HTTP/1.1", status := 404, headers := [], body := "" }

/-- Route resolution of `App::handle_connection`:
`handlers.iter().find(|r| r.0.regex.is_match(path))`, i.e. the handler of
the first registered pattern that matches the path, searched unanchored. -/
def resolve (handlers : HandlerList) (path : String) : Option Handler :=
  (handlers.find? (fun r => isMatch r.1 path.data)).map (fun r => r.2)

/-- Dispatch step of `App::handle_connection`: the resolved handler, or
`not_found` when no pattern matches the request path. -/
def dispatchResponse (handlers : HandlerList) (req : Request) : Response :=
  match resolve handlers (uriPath req.uri) with
  | some h => h req
  | none => not_found req

/-- Header serialization loop of `App::handle_connection`: each response
header as `name: value\r\n` with the value run through `parse_header`. -/
def headerString (hs : List (String × String)) : String :=
  hs.foldl (fun acc p => acc ++ p.1 ++ ": " ++ parse_header p.2 ++ "\r\n") ""

/-- Model of `http::StatusCode::canonical_reason` for the status codes this
repository's handlers use (a subset of the crate's IANA table); `none`
means the lookup fails and the serializer's `.unwrap()` panics. -/
def canonicalReason (code : Nat) : Option String :=
  if code = 200 then some "OK"
  else if code = 400 then some "Bad Request"
  else if code = 404 then some "Not Found"
  else if code = 500 then some "Internal Server Error"
  else none

/-- Response serialization of `App::handle_connection`: the Debug form of the
version, the status code and its canonical reason phrase on the status line,
then the header block, a blank line, and the body; `none` models the panic
of the reason-phrase unwrap. -/
def serializeResponse (res : Response) : Option String :=
  (canonicalReason res.status).map (fun reason =>
    res.version ++ " " ++ toString res.status ++ " " ++ reason ++ "\r\n" ++
      headerString res.headers ++ "\r\n" ++ res.body)

/-- Embedding of `App::handle_connection` after a successful read: parse the
buffer, dispatch, serialize.  `none` models a panic — the `.unwrap()` on
`parse_request`'s result when the buffer has no request line (which, in the
single-threaded `App::run` accept loop, aborts the process), or the
reason-phrase unwrap.  The socket write itself is not modelled; the returned
string is what would be written. -/
def handle_connection (handlers : HandlerList) (buf : String) : Option String :=
  match parse_request buf with
  | ParseOutcome.success req => serializeResponse (dispatchResponse handlers req)
  | _ => none

/-- A handler used in witnesses: answers 200 with body `a`. -/
def hwA : Handler := fun _ => { version := "HTTP/1.1", status := 200, headers := [], body := "a" }

/-- A handler used in witnesses: answers 200 with body `b`. -/
def hwB : Handler := fun _ => { version := "HTTP/1.1", status := 200, headers := [], body := "b" }

/-- A handler used in witnesses: answers 200 with body `c`. -/
def hwC : Handler := fun _ => { version := "HTTP/1.1", status := 200, headers := [], body := "c" }

end SimpleHttp
namespace SimpleHttp

end SimpleHttp

namespace SimpleHttp

end SimpleHttp

namespace SimpleHttp

end SimpleHttp

namespace SimpleHttp

end SimpleHttp

namespace SimpleHttp

end SimpleHttp

namespace SimpleHttp

end SimpleHttp

namespace SimpleHttp

end SimpleHttp

namespace SimpleHttp

end SimpleHttp

namespace SimpleHttp

theorem matchFull_cons (r : Rx) (c : Char) (cs : List Char) :
    matchFull r (c :: cs) = matchFull (deriv r c) cs := rfl

theorem matchHere_iff (l : List Char) :
    ∀ r : Rx, matchHere r l = true ↔
      ∃ mid post, l = mid ++ post ∧ matchFull r mid = true := by
  induction l with
  | nil =>
    intro r
    constructor
    · intro h
      exact ⟨[], [], rfl, h⟩
    · rintro ⟨mid, post, hsplit, hfull⟩
      obtain ⟨h1, h2⟩ := List.append_eq_nil.mp hsplit.symm
      subst h1
      exact hfull
  | cons c cs ih =>
    intro r
    constructor
    · intro h
      rcases Bool.or_eq_true_iff.mp (by simpa [matchHere] using h) with h1 | h1
      · exact ⟨[], c :: cs, rfl, h1⟩
      · obtain ⟨mid, post, hsplit, hfull⟩ := (ih (deriv r c)).mp h1
        refine ⟨c :: mid, post, by simp [hsplit], ?_⟩
        rw [matchFull_cons]
        exact hfull
    · rintro ⟨mid, post, hsplit, hfull⟩
      show (nullable r || matchHere (deriv r c) cs) = true
      cases mid with
      | nil =>
        rw [show matchFull r [] = nullable r from rfl] at hfull
        simp [hfull]
      | cons m ms =>
        rw [List.cons_append] at hsplit
        injection hsplit with hm hrest
        subst hm
        have hrec : matchHere (deriv r c) cs = true := by
          refine (ih (deriv r c)).mpr ⟨ms, post, hrest, ?_⟩
          rw [← matchFull_cons]
          exact hfull
        simp [hrec]

theorem isMatch_iff (l : List Char) (r : Rx) :
    isMatch r l = true ↔
      ∃ pre mid post, l = pre ++ mid ++ post ∧ matchFull r mid = true := by
  induction l with
  | nil =>
    constructor
    · intro h
      exact ⟨[], [], [], rfl, h⟩
    · rintro ⟨pre, mid, post, hsplit, hfull⟩
      obtain ⟨h1, h2⟩ := List.append_eq_nil.mp hsplit.symm
      obtain ⟨h3, h4⟩ := List.append_eq_nil.mp h1
      subst h3
      subst h4
      exact hfull
  | cons c cs ih =>
    constructor
    · intro h
      rcases Bool.or_eq_true_iff.mp (by simpa [isMatch] using h) with h1 | h1
      · obtain ⟨mid, post, hsplit, hfull⟩ := (matchHere_iff (c :: cs) r).mp h1
        exact ⟨[], mid, post, by simpa using hsplit, hfull⟩
      · obtain ⟨pre, mid, post, hsplit, hfull⟩ := ih.mp h1
        exact ⟨c :: pre, mid, post, by simp [hsplit], hfull⟩
    · rintro ⟨pre, mid, post, hsplit, hfull⟩
      show (matchHere r (c :: cs) || isMatch r cs) = true
      cases pre with
      | nil =>
        have hh : matchHere r (c :: cs) = true := by
          refine (matchHere_iff (c :: cs) r).mpr ⟨mid, post, ?_, hfull⟩
          simpa using hsplit
        simp [hh]
      | cons p ps =>
        rw [List.cons_append, List.cons_append] at hsplit
        injection hsplit with hp hrest
        subst hp
        have hh : isMatch r cs = true := by
          refine ih.mpr ⟨ps, mid, post, ?_, hfull⟩
          simpa using hrest
        simp [hh]

theorem resolve_first_match (pre post : HandlerList) (m : Rx) (h : Handler) (path : String)
    (hpre : ∀ q ∈ pre, isMatch q.1 path.data = false)
    (hm : isMatch m path.data = true) :
    resolve (pre ++ (m, h) :: post) path = some h := by
  unfold resolve
  induction pre with
  | nil =>
    rw [List.nil_append, List.find?_cons_of_pos _ (by simpa using hm)]
    rfl
  | cons q qs ih =>
    rw [List.cons_append, List.find?_cons_of_neg _ (by simpa using hpre q (by simp))]
    exact ih (fun q2 hq2 => hpre q2 (by simp [hq2]))

end SimpleHttp

namespace SimpleHttp

theorem mk_data (s : String) : String.mk s.data = s := rfl

theorem flatMap_escape_id (l : List Char)
    (hv : ∀ c ∈ l, isVisibleAscii c = true ∧ c ≠ '"') :
    l.flatMap escapeByte = l := by
  induction l with
  | nil => rfl
  | cons c cs ih =>
    have hc := hv c (by simp)
    have he : escapeByte c = [c] := by
      unfold escapeByte
      rw [if_neg hc.2, if_pos hc.1]
    simp [he, ih (fun x hx => hv x (by simp [hx]))]

theorem resolve_none (handlers : HandlerList) (path : String)
    (hnone : ∀ q ∈ handlers, isMatch q.1 path.data = false) :
    resolve handlers path = none := by
  unfold resolve
  rw [List.find?_eq_none.mpr (fun q hq => by simp [hnone q hq])]
  rfl

theorem serialize_not_found (req : Request) :
    serializeResponse (not_found req) = some "HTTP/1.1 404 Not Found\r\n\r\n" := by
  show serializeResponse { version := "HTTP/1.1", status := 404, headers := [], body := "" } =
    some "HTTP/1.1 404 Not Found\r\n\r\n"
  decide

/-- Claim C1: for every route table and every request path, dispatch iterates
the registered (pattern, handler) pairs in registration order and invokes the
handler of the first pattern that matches the path, where matching is an
unanchored regular-expression search — the pattern may match any substring of
the path, not only the full string; a later-registered matching route (any
`post`) is never chosen when an earlier-registered route matches. -/
theorem dispatch_first_matching_route_wins (pre post : HandlerList) (m : Rx) (h : Handler) (path : String)
    (hpre : ∀ q ∈ pre, isMatch q.1 path.data = false)
    (hm : ∃ a b c2, path.data = a ++ b ++ c2 ∧ matchFull m b = true) :
    resolve (pre ++ (m, h) :: post) path = some h :=
  resolve_first_match pre post m h path hpre ((isMatch_iff path.data m).mpr hm)

/-- Witness for C1: with routes `z`, then literal `foo`, then literal `/`
registered in that order, the path `/foo` resolves to the `foo` handler —
the pattern matches in the middle of the path, and the later also-matching
`/` route is not chosen. -/
theorem dispatch_first_matching_route_wins_witness :
    resolve ([(Rx.lit 'z', hwA)] ++ (rxOfString "foo", hwB) :: [(rxOfString "/", hwC)]) "/foo" =
      some hwB :=
  dispatch_first_matching_route_wins [(Rx.lit 'z', hwA)] [(rxOfString "/", hwC)] (rxOfString "foo") hwB "/foo"
    (by
      intro q hq
      rw [List.mem_singleton] at hq
      subst hq
      decide)
    ⟨['/'], ['f', 'o', 'o'], [], by decide, by decide⟩

/-- Claim C3: for every parsed request whose path matches no registered
pattern, dispatch invokes the built-in `not_found` default handler, whose
response has status 404, an empty body, and serializes with the canonical
reason phrase `Not Found` in the status line. -/
theorem unmatched_path_dispatches_not_found (handlers : HandlerList) (req : Request)
    (hnone : ∀ q ∈ handlers, isMatch q.1 (uriPath req.uri).data = false) :
    dispatchResponse handlers req = not_found req ∧
    (not_found req).status = 404 ∧ (not_found req).body = "" ∧
    serializeResponse (not_found req) = some "HTTP/1.1 404 Not Found\r\n\r\n" := by
  refine ⟨?_, rfl, rfl, serialize_not_found req⟩
  unfold dispatchResponse
  rw [resolve_none handlers (uriPath req.uri) hnone]

/-- Witness for C3 at a concrete table with one non-matching route. -/
theorem unmatched_path_dispatches_not_found_witness :
    dispatchResponse [(Rx.lit 'z', hwA)]
        { method := "GET", uri := "/abc", headers := [], body := "" } =
      not_found { method := "GET", uri := "/abc", headers := [], body := "" } ∧
    (not_found { method := "GET", uri := "/abc", headers := [], body := "" }).status = 404 ∧
    (not_found { method := "GET", uri := "/abc", headers := [], body := "" }).body = "" ∧
    serializeResponse (not_found { method := "GET", uri := "/abc", headers := [], body := "" }) =
      some "HTTP/1.1 404 Not Found\r\n\r\n" :=
  unmatched_path_dispatches_not_found [(Rx.lit 'z', hwA)] { method := "GET", uri := "/abc", headers := [], body := "" }
    (by
      intro q hq
      rw [List.mem_singleton] at hq
      subst hq
      decide)

/-- Claim C7 (amended): for every stored header value of visible-ASCII
characters none of which is a double quote, extraction strips exactly the
enclosing double-quote pair added by the Debug formatting, alters no interior
character, and response re-serialization emits the value verbatim as
`name: value` followed by CRLF. -/
theorem parse_header_plain_value_roundtrip (k v : String)
    (hv : ∀ c ∈ v.data, isVisibleAscii c = true ∧ c ≠ '"') :
    parse_header v = v ∧ headerString [(k, v)] = k ++ ": " ++ v ++ "\r\n" := by
  have h1 : parse_header v = v := by
    unfold parse_header headerValueDebug
    rw [flatMap_escape_id v.data hv]
    unfold stripQuotes
    simp [List.getLast?_concat, List.dropLast_concat, mk_data]
  refine ⟨h1, ?_⟩
  unfold headerString
  rw [List.foldl_cons, List.foldl_nil, h1]
  rfl

/-- Witness for C7 (amended): `bar.com` round-trips unchanged. -/
theorem parse_header_plain_value_roundtrip_witness :
    (∀ c ∈ ("bar.com" : String).data, isVisibleAscii c = true ∧ c ≠ '"') ∧
    (parse_header "bar.com" = "bar.com" ∧
      headerString [("Host", "bar.com")] = "Host" ++ ": " ++ "bar.com" ++ "\r\n") :=
  ⟨by decide, parse_header_plain_value_roundtrip "Host" "bar.com" (by decide)⟩

end SimpleHttp

namespace SimpleHttp

/-- Claim C2 (code bug): on a buffer with no request line, `parse_request`
does signal the failure to its caller by returning no match — but
`App::handle_connection` unwraps that result, and the resulting panic
(`none` here) propagates through the single-threaded accept loop of
`App::run` and aborts the process instead of being contained
per-connection. -/
theorem parse_failure_panics_connection_handler :
    parse_request "this is not an http request at all" = ParseOutcome.noMatch ∧
    handle_connection [] "this is not an http request at all" = none := by decide

/-- Counterexample to C7 as stated: a stored value containing a double quote
has its interior altered by extraction — the quote gains a backslash escape
from the Debug formatting. -/
theorem parse_header_escapes_interior_quote_counterexample :
    parse_header "a\"b" = "a\\\"b" ∧ ("a\\\"b" : String) ≠ "a\"b" := by decide

/-- Claim C8 (code bug): a request parsed from an ordinary origin-form
request line has no URI host, so `construct_request` panics (`none`) on its
host unwrap instead of re-serializing the request. -/
theorem construct_request_panics_on_parsed_request :
    parse_request "GET /foo HTTP/1.1\r\nHost: bar.com\r\n\r\n" =
      ParseOutcome.success
        { method := "GET", uri := "/foo", headers := [("host", ["bar.com"])], body := "" } ∧
    construct_request
        { method := "GET", uri := "/foo", headers := [("host", ["bar.com"])], body := "" } =
      none := by decide

end SimpleHttp
